import Mathlib

/-!
Shallow embedding of the iteration-control core of `ralph.py` (the Ralph loop
wrapper around an external coding agent).  Pure backlog functions
(`pick_next_story`, `union_tests`) are translated directly; process execution
(test commands, the agent binary) is abstracted as oracle functions supplying
each spawned process's exit code and captured combined output, and file I/O
(backlog save, run-state save, ledger append) is made explicit in the
iteration result.  Machine integers do not occur (Python ints are unbounded),
so priorities, exit codes and counters are `Int`/`Nat`.
-/

namespace Ralph

/-- Story (one backlog entry) as loaded from `prd.json`.  Every field the
controller reads is optional in the JSON, mirrored here by `Option`; fields
the controller only interpolates into text (`steps`) or never reads are
omitted since no claim mentions them. -/
structure Story where
  id : Option String
  description : Option String
  priority : Option Int
  tests : Option (List String)
  passes : Option Bool
deriving Repr, DecidableEq

/-- Sort key used by `pick_next_story`:
`(int(s.get("priority", 9999)), str(s.get("id", "")))`. -/
def storyKey (s : Story) : Int × String :=
  (s.priority.getD 9999, s.id.getD "")

/-- Strict lexicographic order on sort keys, matching Python tuple `<`
(strings compared by code point, as Lean's `String.lt` does). -/
def keyLt (a b : Int × String) : Prop :=
  a.1 < b.1 ∨ (a.1 = b.1 ∧ a.2 < b.2)

instance (a b : Int × String) : Decidable (keyLt a b) := by
  unfold keyLt; infer_instance

/-- Reflexive lexicographic order on sort keys, matching Python tuple `<=`. -/
def keyLe (a b : Int × String) : Prop :=
  a.1 < b.1 ∨ (a.1 = b.1 ∧ a.2 ≤ b.2)

/-- Story is unfinished when `not s.get("passes", False)`. -/
def unfinished (s : Story) : Bool :=
  !(s.passes.getD false)

/-- Leftmost key-minimum of a nonempty list: `best` is replaced only on a
strictly smaller key, so ties keep the earlier element — exactly the head of
Python's stable `list.sort(key=...)`. -/
def minByKey (x : Story) (xs : List Story) : Story :=
  xs.foldl (fun best s => if keyLt (storyKey s) (storyKey best) then s else best) x

/-- Embedding of `pick_next_story`: filter the stories with falsy `passes`,
stably sort them by `(priority, id)` and return the first (here: the leftmost
key-minimum), or `none` when every story passes. -/
def pick_next_story (prd : List Story) : Option Story :=
  match prd.filter unfinished with
  | [] => none
  | x :: xs => some (minByKey x xs)

/-- Appends `t` to `seen` unless already present — the body of the inner loop
of `union_tests`. -/
def insertTest (seen : List String) (t : String) : List String :=
  if t ∈ seen then seen else seen ++ [t]

/-- Embedding of `union_tests`: fold every story's `tests` (missing/null
treated as `[]`) through first-occurrence insertion. -/
def union_tests (prd : List Story) : List String :=
  prd.foldl (fun seen s => (s.tests.getD []).foldl insertTest seen) []

/-- Keep the first occurrence of each element, in order (the spec's
"concatenation ... first-seen order, de-duplicated"); stated independently of
the fold in `union_tests` so the two can be compared. -/
def firstOccurrenceDedup : List String → List String
  | [] => []
  | a :: l => a :: firstOccurrenceDedup (l.filter (fun b => b ≠ a))
termination_by l => l.length
decreasing_by
  simp only [List.length_cons]
  exact Nat.lt_succ_of_le (List.length_filter_le _ _)

/-- Result of spawning one external process: its exit code and the captured
combined (stdout+stderr) output, already stripped as `run_streaming` /
`run_tests` do.  An oracle `String → ExecWorld` stands for the operating
system running a given command line. -/
abbrev ExecWorld := String → Int × String

/-- The failure marker `run_tests` appends for a failing command. -/
def failMarker (cmd : String) (rc : Int) : String :=
  "[FAIL] " ++ cmd ++ " exited with " ++ toString rc

/-- Loop body of `run_tests`, returning `(success, log lines, commands
actually executed)`.  For each command the `$ cmd` line is logged, then the
command's output when nonempty; a nonzero exit appends the failure marker and
stops (the Python `return` inside the `for`). -/
def runTestsLoop (exec : ExecWorld) : List String → Bool × List String × List String
  | [] => (true, [], [])
  | cmd :: rest =>
    let r := exec cmd
    let head := ("$ " ++ cmd) :: (if r.2 = "" then [] else [r.2])
    if r.1 = 0 then
      let (ok, logs, ran) := runTestsLoop exec rest
      (ok, head ++ logs, cmd :: ran)
    else
      (false, head ++ [failMarker cmd r.1], [cmd])

/-- Embedding of `run_tests`: empty command list is trivially successful with
the sentinel log; otherwise the loop's log lines are joined with newlines. -/
def run_tests (exec : ExecWorld) (commands : List String) : Bool × String :=
  if commands.isEmpty then (true, "(no tests specified)")
  else
    let (ok, logs, _) := runTestsLoop exec commands
    (ok, String.intercalate "\n" logs)

/-- Outcome of trying to spawn the agent binary: `.error ()` models
`FileNotFoundError` (binary not located), `.ok (rc, transcript)` a process
that ran to exit code `rc` with captured combined output `transcript`. -/
abbrev SpawnResult := Except Unit (Int × String)

/-- Embedding of `call_copilot` (Python `.strip()` modelled by
`String.trim`): a missing binary yields the error-marker string, a nonzero
exit appends the synthetic `[ERROR] copilot exited with <rc>` marker, and a
zero exit returns the transcript unchanged. -/
def call_copilot (spawn : SpawnResult) (copilot_bin : String) : String :=
  match spawn with
  | .error _ => "[ERROR] Copilot binary not found: " ++ copilot_bin
  | .ok (rc, combined) =>
    if rc ≠ 0 then (combined ++ "\n\n[ERROR] copilot exited with " ++ toString rc).trim
    else combined

/-- Rendering of an optional JSON string the way a Python f-string renders
`story.get("id")`: a missing key prints as `None`. -/
def pyShowOpt : Option String → String
  | some s => s
  | none => "None"

/-- Last-80-lines truncation applied to the failing test log inside
`build_final_tests_fix_prompt` (Python `splitlines` modelled by splitting on
newline, adequate for the newline-joined logs `run_tests` produces). -/
def truncateTestLog (log : String) : String :=
  let lines := log.splitOn "\n"
  if lines.length > 80 then String.intercalate "\n" (lines.drop (lines.length - 80))
  else log

/-- Embedding of `build_final_tests_fix_prompt`.  The repository context that
the Python version reads from git (`git_branch()`, `git_porcelain()`,
`git_diff_stat()`) is passed in as the oracle strings `branch`, `porcelain`
and `diffstat`; Python string truthiness (`x or "(clean)"`) becomes an
emptiness test. -/
def build_final_tests_fix_prompt (prd : List Story) (test_log progressTail
    completion_token branch porcelain diffstat : String) : String :=
  let final_tests := union_tests prd
  let tests_list := String.intercalate "\n" (final_tests.map (fun t => "- " ++ t))
  let pre := "You are acting as an autonomous coding agent inside a git repo.\n\nGOAL\nAll PRD stories are marked as passing, but the FINAL TESTS are failing. Fix the failing tests.\n\nFAILING TESTS\n"
    ++ tests_list
    ++ "\n\nTEST OUTPUT (failures)\n"
  let suf := "\n\nRULES (NON-NEGOTIABLE)\n1) Analyze the test failures and fix the underlying code issues.\n2) Do NOT modify the tests unless they are clearly incorrect.\n3) Make the smallest set of changes that fix the failures.\n4) Ensure repository is left clean (no uncommitted changes) by committing your work.\n5) Do not emit the token "
    ++ completion_token
    ++ " unless all final tests pass AND git is clean.\n\nCONTEXT\n- Current branch: "
    ++ branch
    ++ "\n- Git status: " ++ (if porcelain = "" then "(clean)" else porcelain)
    ++ "\n- Diff stat: " ++ (if diffstat = "" then "(none)" else diffstat)
    ++ "\n\nRECENT PROGRESS LOG (tail)\n"
    ++ progressTail
    ++ "\n\nOUTPUT FORMAT\n- Start with a short analysis of what\x27s failing and why.\n- Then fix the code.\n- Commit your changes.\n- End with \"FIXES_APPLIED\" if you believe the fixes are done.\n- Only end with "
    ++ completion_token
    ++ " if all final tests pass AND git is clean.\n"
  pre ++ truncateTestLog test_log ++ suf

/-- Set `passes = True` on the first story whose `id` equals `sid` — the
effect on the reloaded backlog of Python's in-place mutation
`story2["passes"] = True` before `save_json(args.prd, prd2)`, where `story2`
is located by `next(s for s in prd2 if s.get("id") == story.get("id"))`. -/
def markFirstPassing : List Story → Option String → List Story
  | [], _ => []
  | s :: rest, sid =>
    if s.id = sid then { s with passes := some true } :: rest
    else s :: markFirstPassing rest sid

/-- Run-state record (`state.json`): well-typed view of the JSON the
controller itself writes.  `last_story` is doubly optional because the stored
value is itself `story2.get("id")`, which may be null. -/
structure StateRec where
  created_at : Option String
  runs : Int
  last_completed_at : Option String
  last_iteration_at : Option String
  last_story : Option (Option String)
deriving Repr, DecidableEq

/-- Start-of-run state initialisation (lines 402-408): load the existing
record, or create `(created_at, runs := 0)` and save it.  Returns the state
and whether a fresh record was created (and persisted). -/
def initState (existing : Option StateRec) (now : String) : StateRec × Bool :=
  match existing with
  | some st => (st, false)
  | none => ({ created_at := some now, runs := 0, last_completed_at := none,
               last_iteration_at := none, last_story := none }, true)

/-- Oracle inputs consumed by one iteration of the main loop: the backlog as
first loaded (`prd`), the backlog as re-loaded after the agent ran (`prd2`),
the process world for test commands, the agent spawn outcome, the
`git_clean()` answers after the story-acceptance commit and after the
final-phase tracking commit, and the strings the iteration interpolates into
prompts and ledger blocks. -/
structure IterEnv where
  prd : List Story
  prd2 : List Story
  exec : ExecWorld
  agent : SpawnResult
  cleanAfterCommit : Bool
  cleanAfterFinalCommit : Bool
  now : String
  progressTail : String
  branch : String
  porcelain : String
  diffstat : String
  copilot_bin : String
  token : String

/-- Control outcome of one loop-body execution, labelling which of the
source's branches was taken. -/
inductive IterStatus where
  | vanished | noTests | testsFail | acceptedDirty | accepted
  | finalFix | finalNotClean | success
deriving Repr, DecidableEq

/-- Observable effects of one loop-body execution: the branch taken, the
`return` code if the body returned, the value written to `prd.json` if
`save_json(args.prd, ...)` ran, how many times `save_json(args.state, ...)`
ran, the resulting in-memory state, the blocks appended to the progress
ledger, whether the agent was invoked, and the final-tests fix prompt if one
was built. -/
structure IterResult where
  status : IterStatus
  exit : Option Int
  prdSaved : Option (List Story)
  stateSaves : Nat
  stateAfter : StateRec
  progress : List String
  agentInvoked : Bool
  fixPrompt : Option String
deriving Repr

/-- Ledger block prefix `[<timestamp>] ` as written by `append_progress`
callers. -/
def pb (now rest : String) : String := "[" ++ now ++ "] " ++ rest

/-- One execution of the body of the `for i in range(1, max_iterations + 1)`
loop (lines 434-564), with every external effect reified in the result.  The
iteration number `i` only appears inside ledger text. -/
def loopIter (e : IterEnv) (i : Nat) (st : StateRec) : IterResult :=
  match pick_next_story e.prd with
  | none =>
    let final_tests := union_tests e.prd
    let (ok, flog) :=
      if final_tests = [] then (true, "(no tests)")
      else run_tests e.exec final_tests
    if ok then
      if e.cleanAfterFinalCommit then
        { status := .success, exit := some 0, prdSaved := none, stateSaves := 1,
          stateAfter := { st with runs := st.runs + 1, last_completed_at := some e.now },
          progress := [pb e.now ("ALL_PASS + FINAL_TESTS_PASS + CLEAN => " ++ e.token ++ "\n")],
          agentInvoked := false, fixPrompt := none }
      else
        { status := .finalNotClean, exit := none, prdSaved := none, stateSaves := 0,
          stateAfter := st,
          progress := [pb e.now ("FINAL_NOT_CLEAN\n" ++ e.porcelain ++ "\n")],
          agentInvoked := false, fixPrompt := none }
    else
      let prompt := build_final_tests_fix_prompt e.prd flog e.progressTail e.token
        e.branch e.porcelain e.diffstat
      let out := call_copilot e.agent e.copilot_bin
      { status := .finalFix, exit := none, prdSaved := none, stateSaves := 0,
        stateAfter := st,
        progress := [pb e.now ("FINAL_TESTS_FAIL\n" ++ flog ++ "\n"),
                     pb e.now ("ITERATION " ++ toString i ++ " FINAL_TESTS_FIX\n" ++ out ++ "\n")],
        agentInvoked := true, fixPrompt := some prompt }
  | some story =>
    let out := call_copilot e.agent e.copilot_bin
    let storyBlock := pb e.now ("ITERATION " ++ toString i ++ " STORY " ++ pyShowOpt story.id
      ++ " (" ++ pyShowOpt story.description ++ ")\n" ++ out ++ "\n")
    match e.prd2.find? (fun s => decide (s.id = story.id)) with
    | none =>
      { status := .vanished, exit := some 3, prdSaved := none, stateSaves := 0,
        stateAfter := st,
        progress := [storyBlock, pb e.now "ERROR: story disappeared from prd.json\n"],
        agentInvoked := true, fixPrompt := none }
    | some story2 =>
      let tests := story2.tests.getD []
      if tests = [] then
        { status := .noTests, exit := none, prdSaved := none, stateSaves := 0,
          stateAfter := st,
          progress := [storyBlock, pb e.now "ERROR: story has no tests; refusing to mark pass.\n"],
          agentInvoked := true, fixPrompt := none }
      else
        let (ok, tlog) := run_tests e.exec tests
        if ok then
          let prd3 := markFirstPassing e.prd2 story.id
          if e.cleanAfterCommit then
            { status := .accepted, exit := none, prdSaved := some prd3, stateSaves := 1,
              stateAfter := { st with
                runs := st.runs + 1, last_iteration_at := some e.now,
                last_story := some story2.id },
              progress := [storyBlock,
                pb e.now ("STORY_PASS " ++ pyShowOpt story2.id ++ " (tests pass + committed + clean)\n")],
              agentInvoked := true, fixPrompt := none }
          else
            { status := .acceptedDirty, exit := some 5, prdSaved := some prd3, stateSaves := 0,
              stateAfter := st,
              progress := [storyBlock,
                pb e.now ("ERROR: repo not clean after commit.\n" ++ e.porcelain ++ "\n")],
              agentInvoked := true, fixPrompt := none }
        else
          { status := .testsFail, exit := none, prdSaved := none, stateSaves := 0,
            stateAfter := st,
            progress := [storyBlock,
              pb e.now ("TESTS_FAIL for " ++ pyShowOpt story2.id ++ "\n" ++ tlog ++ "\n")],
            agentInvoked := true, fixPrompt := none }

/-- Whole-run oracle: per-iteration environments (indexed from 1 like the
Python loop variable), the iteration budget, the start-of-run cleanliness
answer, the `--allow-dirty` flag, and the pre-existing state file if any. -/
structure RunEnv where
  iters : Nat → IterEnv
  maxIterations : Nat
  allowDirty : Bool
  cleanStart : Bool
  state0 : Option StateRec
  startNow : String

/-- The loop from iteration `i` on: run bodies until one returns, and fall
through to `return 1` ("Did not finish within max iterations") once the
budget is spent. -/
def runFrom (env : RunEnv) (i : Nat) (st : StateRec) : Int :=
  if _h : i ≤ env.maxIterations then
    match (loopIter (env.iters i) i st).exit with
    | some c => c
    | none => runFrom env (i + 1) (loopIter (env.iters i) i st).stateAfter
  else 1
termination_by env.maxIterations + 1 - i
decreasing_by omega

/-- Embedding of `main` after argument parsing: the start-of-run dirty-tree
gate (`return 2`), state initialisation, then the iteration loop.  (The other
`return 2` — a missing `--prompt-prefix` file — is prompt glue and not
modelled; it shares code 2 with the dirty-start refusal.) -/
def ralphMain (env : RunEnv) : Int :=
  if !env.allowDirty && !env.cleanStart then 2
  else runFrom env 1 (initState env.state0 env.startNow).1

/-! ### Properties of `union_tests` (claim C4) -/

theorem firstOccurrenceDedup_nil : firstOccurrenceDedup [] = [] := by
  rw [firstOccurrenceDedup]

theorem firstOccurrenceDedup_cons (a : String) (l : List String) :
    firstOccurrenceDedup (a :: l) =
      a :: firstOccurrenceDedup (l.filter (fun b => b ≠ a)) := by
  rw [firstOccurrenceDedup]

theorem mem_firstOccurrenceDedup (x : String) (l : List String) :
    x ∈ firstOccurrenceDedup l ↔ x ∈ l := by
  induction l using firstOccurrenceDedup.induct with
  | case1 => simp [firstOccurrenceDedup_nil]
  | case2 a l ih =>
    rw [firstOccurrenceDedup_cons]
    simp only [List.mem_cons, ih, List.mem_filter, decide_eq_true_eq]
    by_cases hxa : x = a <;> tauto

theorem nodup_firstOccurrenceDedup (l : List String) :
    (firstOccurrenceDedup l).Nodup := by
  induction l using firstOccurrenceDedup.induct with
  | case1 => simp [firstOccurrenceDedup_nil]
  | case2 a l ih =>
    rw [firstOccurrenceDedup_cons]
    refine List.nodup_cons.2 ⟨fun hmem => ?_, ih⟩
    rw [mem_firstOccurrenceDedup] at hmem
    simp at hmem

theorem foldl_insertTest_eq (l seen : List String) :
    l.foldl insertTest seen =
      seen ++ firstOccurrenceDedup (l.filter (fun t => t ∉ seen)) := by
  induction l generalizing seen with
  | nil => simp [firstOccurrenceDedup_nil]
  | cons a l ih =>
    by_cases ha : a ∈ seen
    · have hstep : insertTest seen a = seen := by simp [insertTest, ha]
      rw [List.foldl_cons, hstep, ih]
      have hfilter : (a :: l).filter (fun t => t ∉ seen) =
          l.filter (fun t => t ∉ seen) := by
        simp [List.filter_cons, ha]
      rw [hfilter]
    · have hstep : insertTest seen a = seen ++ [a] := by simp [insertTest, ha]
      rw [List.foldl_cons, hstep, ih]
      have hfilter : (a :: l).filter (fun t => t ∉ seen) =
          a :: l.filter (fun t => t ∉ seen) := by
        simp [List.filter_cons, ha]
      have hfilter2 : l.filter (fun t => t ∉ seen ++ [a]) =
          (l.filter (fun t => t ∉ seen)).filter (fun b => b ≠ a) := by
        rw [List.filter_filter]
        apply List.filter_congr
        intro x _
        by_cases h1 : x ∈ seen <;> by_cases h2 : x = a <;>
          simp [List.mem_append, h1, h2]
      rw [hfilter, firstOccurrenceDedup_cons, hfilter2, List.append_assoc,
        List.singleton_append]

theorem union_tests_eq_foldl (prd : List Story) (seen : List String) :
    prd.foldl (fun seen s => (s.tests.getD []).foldl insertTest seen) seen =
      ((prd.map (fun s => s.tests.getD [])).flatten).foldl insertTest seen := by
  induction prd generalizing seen with
  | nil => rfl
  | cons s prd ih => simp [List.foldl_append, ih]

/-- Claim C4: `union_tests` returns the concatenation of every story's test
commands (missing lists as `[]`), in first-occurrence order with duplicates
removed — never sorted — and the result has no duplicates.  The spec's
`[a,b]`/`[b,c] ↦ [a,b,c]` example is an instance (see the witness below). -/
theorem union_tests_spec (prd : List Story) :
    union_tests prd =
      firstOccurrenceDedup ((prd.map (fun s => s.tests.getD [])).flatten) ∧
    (union_tests prd).Nodup := by
  have h : union_tests prd =
      firstOccurrenceDedup ((prd.map (fun s => s.tests.getD [])).flatten) := by
    rw [union_tests, union_tests_eq_foldl, foldl_insertTest_eq, List.nil_append]
    congr 1
    apply List.filter_eq_self.mpr
    intro a _
    simp
  exact ⟨h, h ▸ nodup_firstOccurrenceDedup _⟩

/-! ### Properties of `pick_next_story` (claims C2, C10) -/

theorem keyLe_of_keyLt {a b : Int × String} (h : keyLt a b) : keyLe a b := by
  rcases h with h | ⟨h1, h2⟩
  · exact Or.inl h
  · exact Or.inr ⟨h1, le_of_lt h2⟩

theorem keyLe_trans {a b c : Int × String} (hab : keyLe a b) (hbc : keyLe b c) :
    keyLe a c := by
  rcases hab with h | ⟨h1, h2⟩ <;> rcases hbc with h' | ⟨h1', h2'⟩
  · exact Or.inl (lt_trans h h')
  · exact Or.inl (h1' ▸ h)
  · exact Or.inl (h1 ▸ h')
  · exact Or.inr ⟨h1.trans h1', le_trans h2 h2'⟩

theorem keyLe_of_not_keyLt {a b : Int × String} (h : ¬keyLt a b) : keyLe b a := by
  unfold keyLt at h
  push_neg at h
  obtain ⟨h1, h2⟩ := h
  rcases lt_or_eq_of_le h1 with hlt | heq
  · exact Or.inl hlt
  · exact Or.inr ⟨heq, h2 heq.symm⟩

theorem minByKey_spec (x : Story) (xs : List Story) :
    (minByKey x xs = x ∨ minByKey x xs ∈ xs) ∧
    keyLe (storyKey (minByKey x xs)) (storyKey x) ∧
    ∀ t ∈ xs, keyLe (storyKey (minByKey x xs)) (storyKey t) := by
  induction xs generalizing x with
  | nil =>
    refine ⟨Or.inl rfl, ?_, by simp⟩
    exact Or.inr ⟨rfl, le_refl _⟩
  | cons s xs ih =>
    have hunfold : minByKey x (s :: xs) =
        minByKey (if keyLt (storyKey s) (storyKey x) then s else x) xs := by
      simp [minByKey]
    by_cases hlt : keyLt (storyKey s) (storyKey x)
    · rw [hunfold, if_pos hlt]
      obtain ⟨hmem, hle, hall⟩ := ih s
      refine ⟨?_, ?_, ?_⟩
      · rcases hmem with h | h
        · refine Or.inr ?_
          rw [h]
          exact List.mem_cons_self _ _
        · exact Or.inr (List.mem_cons_of_mem _ h)
      · exact keyLe_trans hle (keyLe_of_keyLt hlt)
      · intro t ht
        rcases List.mem_cons.mp ht with rfl | ht'
        · exact hle
        · exact hall t ht'
    · rw [hunfold, if_neg hlt]
      obtain ⟨hmem, hle, hall⟩ := ih x
      refine ⟨?_, hle, ?_⟩
      · rcases hmem with h | h
        · exact Or.inl h
        · exact Or.inr (List.mem_cons_of_mem _ h)
      intro t ht
      rcases List.mem_cons.mp ht with rfl | ht'
      · exact keyLe_trans hle (keyLe_of_not_keyLt hlt)
      · exact hall t ht'

/-- Claim C2: `pick_next_story` returns `none` exactly when every story
passes; when it returns a story, that story is an unfinished member of the
backlog whose `(priority, id)` key (with the defaults `9999` / `""`) is
lexicographically least among all unfinished stories; and selection is a
pure function of the backlog, hence deterministic across equal inputs. -/
theorem pick_next_story_spec (prd : List Story) :
    (pick_next_story prd = none ↔ ∀ s ∈ prd, unfinished s = false) ∧
    (∀ s, pick_next_story prd = some s →
      s ∈ prd ∧ unfinished s = true ∧
      ∀ t ∈ prd, unfinished t = true → keyLe (storyKey s) (storyKey t)) ∧
    (∀ prd2, prd = prd2 → pick_next_story prd = pick_next_story prd2) := by
  refine ⟨?_, ?_, fun prd2 h => h ▸ rfl⟩
  · constructor
    · intro hnone s hs
      cases hfil : prd.filter unfinished with
      | nil =>
        have := List.filter_eq_nil_iff.mp hfil s hs
        simpa using this
      | cons x xs => simp [pick_next_story, hfil] at hnone
    · intro hall
      have : prd.filter unfinished = [] := by
        apply List.filter_eq_nil_iff.mpr
        intro s hs
        simp [hall s hs]
      simp [pick_next_story, this]
  · intro s hs
    cases hfil : prd.filter unfinished with
    | nil => simp [pick_next_story, hfil] at hs
    | cons x xs =>
      have hsval : s = minByKey x xs := by
        simpa [pick_next_story, hfil] using hs.symm
      obtain ⟨hmem, hle, hall⟩ := minByKey_spec x xs
      have hsin : s ∈ prd.filter unfinished := by
        rw [hfil, hsval]
        rcases hmem with h | h
        · rw [h]
          exact List.mem_cons_self _ _
        · exact List.mem_cons_of_mem _ h
      have hsfil := List.mem_filter.mp hsin
      refine ⟨hsfil.1, hsfil.2, ?_⟩
      intro t ht htu
      have htin : t ∈ prd.filter unfinished := List.mem_filter.mpr ⟨ht, htu⟩
      rw [hfil] at htin
      rcases List.mem_cons.mp htin with rfl | ht'
      · exact hsval ▸ hle
      · exact hsval ▸ hall t ht'

/-- Concrete stories exercising `pick_next_story_spec`. -/
def w2A : Story := ⟨some "A", none, some 2, some ["t"], none⟩

/-- Concrete story with the smaller priority, selected in the witness. -/
def w2B : Story := ⟨some "B", none, some 1, none, some false⟩

/-- Witness for C2 at a concrete two-story backlog: the priority-1 story is
selected and its key is minimal among unfinished stories. -/
theorem pick_next_story_spec_witness :
    w2B ∈ [w2A, w2B] ∧ unfinished w2B = true ∧
      ∀ t ∈ [w2A, w2B], unfinished t = true →
        keyLe (storyKey w2B) (storyKey t) :=
  (pick_next_story_spec [w2A, w2B]).2.1 w2B (by decide)

/-- Modelled from the claim's words: an explicit normalisation that fills the
defaults `pick_next_story` is said to apply — missing `passes` becomes
`false`, missing `priority` becomes `9999`, missing `id` becomes `""`. -/
def fillDefaults (s : Story) : Story :=
  { s with passes := some (s.passes.getD false),
           priority := some (s.priority.getD 9999),
           id := some (s.id.getD "") }

theorem storyKey_fillDefaults (s : Story) :
    storyKey (fillDefaults s) = storyKey s := rfl

theorem unfinished_fillDefaults (s : Story) :
    unfinished (fillDefaults s) = unfinished s := rfl

theorem minByKey_map_fillDefaults (x : Story) (xs : List Story) :
    minByKey (fillDefaults x) (xs.map fillDefaults) = fillDefaults (minByKey x xs) := by
  induction xs generalizing x with
  | nil => rfl
  | cons s xs ih =>
    have h1 : minByKey (fillDefaults x) ((s :: xs).map fillDefaults) =
        minByKey (if keyLt (storyKey s) (storyKey x) then fillDefaults s
          else fillDefaults x) (xs.map fillDefaults) := by
      simp only [List.map_cons, minByKey, List.foldl_cons, storyKey_fillDefaults]
    rw [h1]
    have h2 : minByKey x (s :: xs) =
        minByKey (if keyLt (storyKey s) (storyKey x) then s else x) xs := by
      simp [minByKey]
    rw [h2]
    split <;> exact ih _

theorem filter_unfinished_map_fillDefaults (prd : List Story) :
    (prd.map fillDefaults).filter unfinished =
      (prd.filter unfinished).map fillDefaults := by
  induction prd with
  | nil => rfl
  | cons s prd ih =>
    simp only [List.map_cons, List.filter_cons, unfinished_fillDefaults]
    split <;> simp [ih]

/-- Claim C10: `pick_next_story` is total over stories with missing fields
and treats them through fixed defaults — missing `passes` counts as
unfinished, missing `priority` sorts as `9999`, missing `id` sorts as `""` —
so filling those defaults explicitly commutes with selection. -/
theorem pick_next_story_defaults (prd : List Story) :
    pick_next_story (prd.map fillDefaults) =
      (pick_next_story prd).map fillDefaults ∧
    (∀ s : Story, s.passes = none → unfinished s = true) ∧
    (∀ s : Story, s.priority = none → (storyKey s).1 = 9999) ∧
    (∀ s : Story, s.id = none → (storyKey s).2 = "") := by
  refine ⟨?_, ?_, ?_, ?_⟩
  · rw [pick_next_story, pick_next_story, filter_unfinished_map_fillDefaults]
    cases hfil : prd.filter unfinished with
    | nil => rfl
    | cons x xs => simp [minByKey_map_fillDefaults]
  · intro s h
    simp [unfinished, h]
  · intro s h
    simp [storyKey, h]
  · intro s h
    simp [storyKey, h]

/-- Witness for C10 at the story with every field missing: it is treated as
unfinished with key `(9999, "")`, and default-filling a one-story backlog
commutes with selection. -/
theorem pick_next_story_defaults_witness :
    pick_next_story ([(⟨none, none, none, none, none⟩ : Story)].map fillDefaults) =
      (pick_next_story [(⟨none, none, none, none, none⟩ : Story)]).map fillDefaults ∧
    unfinished ⟨none, none, none, none, none⟩ = true :=
  ⟨(pick_next_story_defaults [⟨none, none, none, none, none⟩]).1,
   (pick_next_story_defaults []).2.1 ⟨none, none, none, none, none⟩ rfl⟩

/-! ### Properties of `run_tests` (claim C3, also used by C1) -/

theorem runTestsLoop_nil (exec : ExecWorld) : runTestsLoop exec [] = (true, [], []) := rfl

theorem runTestsLoop_cons_ok (exec : ExecWorld) (cmd : String) (rest : List String)
    (h : (exec cmd).1 = 0) :
    runTestsLoop exec (cmd :: rest) =
      ((runTestsLoop exec rest).1,
       (("$ " ++ cmd) :: (if (exec cmd).2 = "" then [] else [(exec cmd).2]))
         ++ (runTestsLoop exec rest).2.1,
       cmd :: (runTestsLoop exec rest).2.2) := by
  simp [runTestsLoop, h]

theorem runTestsLoop_cons_fail (exec : ExecWorld) (cmd : String) (rest : List String)
    (h : ¬(exec cmd).1 = 0) :
    runTestsLoop exec (cmd :: rest) =
      (false,
       (("$ " ++ cmd) :: (if (exec cmd).2 = "" then [] else [(exec cmd).2]))
         ++ [failMarker cmd (exec cmd).1],
       [cmd]) := by
  simp [runTestsLoop, h]

/-- When the loop reports success it has executed every command, each with
exit code zero, and logged each nonempty output. -/
theorem runTestsLoop_success (exec : ExecWorld) (cmds : List String)
    (h : (runTestsLoop exec cmds).1 = true) :
    (runTestsLoop exec cmds).2.2 = cmds ∧
    (∀ x ∈ cmds, (exec x).1 = 0) ∧
    (∀ x ∈ cmds, (exec x).2 ≠ "" → (exec x).2 ∈ (runTestsLoop exec cmds).2.1) := by
  induction cmds with
  | nil => simp [runTestsLoop_nil]
  | cons cmd rest ih =>
    by_cases hc : (exec cmd).1 = 0
    · rw [runTestsLoop_cons_ok exec cmd rest hc] at h ⊢
      simp only at h
      obtain ⟨hran, hall, hlog⟩ := ih h
      refine ⟨by simp [hran], ?_, ?_⟩
      · intro x hx
        rcases List.mem_cons.mp hx with rfl | hx'
        · exact hc
        · exact hall x hx'
      · intro x hx hne
        rcases List.mem_cons.mp hx with rfl | hx'
        · simp [hne]
        · exact List.mem_append_right _ (hlog x hx' hne)
    · rw [runTestsLoop_cons_fail exec cmd rest hc] at h
      simp at h

/-- Claim C3: given commands `pre ++ c :: post` where every command of `pre`
succeeds and `c` fails, the loop executes exactly `pre ++ [c]` (nothing after
the first failure), reports failure, logs the failure marker for `c`, and
logs every executed command's nonempty output; `run_tests` returns `false`
with those log lines joined by newlines. -/
theorem run_tests_first_failure (exec : ExecWorld) (pre : List String) (c : String)
    (post : List String)
    (hpre : ∀ x ∈ pre, (exec x).1 = 0) (hc : (exec c).1 ≠ 0) :
    (runTestsLoop exec (pre ++ c :: post)).2.2 = pre ++ [c] ∧
    (runTestsLoop exec (pre ++ c :: post)).1 = false ∧
    failMarker c (exec c).1 ∈ (runTestsLoop exec (pre ++ c :: post)).2.1 ∧
    (∀ x ∈ pre ++ [c], (exec x).2 ≠ "" →
      (exec x).2 ∈ (runTestsLoop exec (pre ++ c :: post)).2.1) ∧
    run_tests exec (pre ++ c :: post) =
      (false, String.intercalate "\n" (runTestsLoop exec (pre ++ c :: post)).2.1) := by
  have main : (runTestsLoop exec (pre ++ c :: post)).2.2 = pre ++ [c] ∧
      (runTestsLoop exec (pre ++ c :: post)).1 = false ∧
      failMarker c (exec c).1 ∈ (runTestsLoop exec (pre ++ c :: post)).2.1 ∧
      (∀ x ∈ pre ++ [c], (exec x).2 ≠ "" →
        (exec x).2 ∈ (runTestsLoop exec (pre ++ c :: post)).2.1) := by
    induction pre with
    | nil =>
      rw [List.nil_append, runTestsLoop_cons_fail exec c post hc]
      refine ⟨rfl, rfl, by simp, ?_⟩
      intro x hx hne
      rcases List.mem_cons.mp hx with rfl | hx'
      · simp [hne]
      · simp at hx'
    | cons p pre ih =>
      have hp : (exec p).1 = 0 := hpre p (List.mem_cons_self _ _)
      have hpre' : ∀ x ∈ pre, (exec x).1 = 0 :=
        fun x hx => hpre x (List.mem_cons_of_mem _ hx)
      obtain ⟨ihran, ihok, ihmark, ihlog⟩ := ih hpre'
      rw [List.cons_append, runTestsLoop_cons_ok exec p _ hp]
      refine ⟨by simp [ihran], by simp [ihok], List.mem_append_right _ ihmark, ?_⟩
      intro x hx hne
      rcases List.mem_cons.mp hx with rfl | hx'
      · simp [hne]
      · exact List.mem_append_right _ (ihlog x hx' hne)
  refine ⟨main.1, main.2.1, main.2.2.1, main.2.2.2, ?_⟩
  rw [run_tests]
  have hne : (pre ++ c :: post).isEmpty = false := by
    cases pre <;> rfl
  rw [hne]
  simp only [Bool.false_eq_true, if_false]
  rw [show (runTestsLoop exec (pre ++ c :: post)) =
    ((runTestsLoop exec (pre ++ c :: post)).1,
     (runTestsLoop exec (pre ++ c :: post)).2.1,
     (runTestsLoop exec (pre ++ c :: post)).2.2) from rfl]
  rw [main.2.1]

/-- Witness for C3: with `pre = ["ok"]` succeeding and `"bad"` failing with
exit code 7, only `["ok", "bad"]` run, the result is failure, and the log
carries the marker. -/
theorem run_tests_first_failure_witness :
    (runTestsLoop (fun cmd => if cmd = "bad" then (7, "boom") else (0, "fine"))
        (["ok"] ++ "bad" :: ["never"])).2.2 = ["ok"] ++ ["bad"] ∧
    (runTestsLoop (fun cmd => if cmd = "bad" then (7, "boom") else (0, "fine"))
        (["ok"] ++ "bad" :: ["never"])).1 = false ∧
    failMarker "bad" 7 ∈
      (runTestsLoop (fun cmd => if cmd = "bad" then (7, "boom") else (0, "fine"))
        (["ok"] ++ "bad" :: ["never"])).2.1 := by
  have h := run_tests_first_failure
    (fun cmd => if cmd = "bad" then (7, "boom") else (0, "fine"))
    ["ok"] "bad" ["never"] (by decide) (by decide)
  exact ⟨h.1, h.2.1, by simpa using h.2.2.1⟩

/-! ### Properties of `call_copilot` (claim C8) -/

/-- Claim C8: `call_copilot` is a total function (it never raises): a missing
binary yields the error-marker string instead of an exception, a nonzero exit
code yields the transcript with the synthetic `[ERROR] copilot exited with
<code>` marker appended (then stripped), and a zero exit code yields the
transcript unchanged. -/
theorem call_copilot_spec (bin combined : String) (rc : Int) :
    call_copilot (.error ()) bin = "[ERROR] Copilot binary not found: " ++ bin ∧
    (rc ≠ 0 → call_copilot (.ok (rc, combined)) bin =
      (combined ++ "\n\n[ERROR] copilot exited with " ++ toString rc).trim) ∧
    call_copilot (.ok (0, combined)) bin = combined := by
  refine ⟨rfl, ?_, rfl⟩
  intro h
  simp [call_copilot, h]

/-- Witness for C8 at exit code 7: the synthetic error marker is appended to
the transcript. -/
theorem call_copilot_spec_witness :
    call_copilot (.ok (7, "transcript")) "copilot" =
      ("transcript" ++ "\n\n[ERROR] copilot exited with " ++ toString (7 : Int)).trim :=
  (call_copilot_spec "copilot" "transcript" 7).2.1 (by decide)

/-! ### The acceptance invariant (claims C1, C7) -/

theorem run_tests_fst (exec : ExecWorld) (cmds : List String) (h : cmds ≠ []) :
    (run_tests exec cmds).1 = (runTestsLoop exec cmds).1 := by
  cases cmds with
  | nil => exact absurd rfl h
  | cons c rest =>
    rw [run_tests]
    simp only [List.isEmpty_cons, Bool.false_eq_true, if_false]

/-! Branch-unfolding equations for `loopIter`, one per branch of the source's
loop body. -/

theorem loopIter_success_eq (e : IterEnv) (i : Nat) (st : StateRec)
    (hpick : pick_next_story e.prd = none)
    (hok : (if union_tests e.prd = [] then (true, "(no tests)")
      else run_tests e.exec (union_tests e.prd)).1 = true)
    (hcl : e.cleanAfterFinalCommit = true) :
    loopIter e i st =
      { status := .success, exit := some 0, prdSaved := none, stateSaves := 1,
        stateAfter := { st with runs := st.runs + 1, last_completed_at := some e.now },
        progress := [pb e.now ("ALL_PASS + FINAL_TESTS_PASS + CLEAN => " ++ e.token ++ "\n")],
        agentInvoked := false, fixPrompt := none } := by
  rw [loopIter, hpick]
  simp only
  rw [show (if union_tests e.prd = [] then (true, "(no tests)")
      else run_tests e.exec (union_tests e.prd)) =
    ((if union_tests e.prd = [] then (true, "(no tests)")
      else run_tests e.exec (union_tests e.prd)).1,
     (if union_tests e.prd = [] then (true, "(no tests)")
      else run_tests e.exec (union_tests e.prd)).2) from rfl]
  rw [hok]
  simp [hcl]

theorem loopIter_finalNotClean_eq (e : IterEnv) (i : Nat) (st : StateRec)
    (hpick : pick_next_story e.prd = none)
    (hok : (if union_tests e.prd = [] then (true, "(no tests)")
      else run_tests e.exec (union_tests e.prd)).1 = true)
    (hcl : e.cleanAfterFinalCommit = false) :
    loopIter e i st =
      { status := .finalNotClean, exit := none, prdSaved := none, stateSaves := 0,
        stateAfter := st,
        progress := [pb e.now ("FINAL_NOT_CLEAN\n" ++ e.porcelain ++ "\n")],
        agentInvoked := false, fixPrompt := none } := by
  rw [loopIter, hpick]
  simp only
  rw [show (if union_tests e.prd = [] then (true, "(no tests)")
      else run_tests e.exec (union_tests e.prd)) =
    ((if union_tests e.prd = [] then (true, "(no tests)")
      else run_tests e.exec (union_tests e.prd)).1,
     (if union_tests e.prd = [] then (true, "(no tests)")
      else run_tests e.exec (union_tests e.prd)).2) from rfl]
  rw [hok]
  simp [hcl]

theorem loopIter_finalFix_eq (e : IterEnv) (i : Nat) (st : StateRec) (lg : String)
    (hpick : pick_next_story e.prd = none)
    (hft : ¬union_tests e.prd = [])
    (hrun : run_tests e.exec (union_tests e.prd) = (false, lg)) :
    loopIter e i st =
      { status := .finalFix, exit := none, prdSaved := none, stateSaves := 0,
        stateAfter := st,
        progress := [pb e.now ("FINAL_TESTS_FAIL\n" ++ lg ++ "\n"),
          pb e.now ("ITERATION " ++ toString i ++ " FINAL_TESTS_FIX\n"
            ++ call_copilot e.agent e.copilot_bin ++ "\n")],
        agentInvoked := true,
        fixPrompt := some (build_final_tests_fix_prompt e.prd lg e.progressTail
          e.token e.branch e.porcelain e.diffstat) } := by
  rw [loopIter, hpick]
  simp [hft, hrun]

theorem loopIter_vanished_eq (e : IterEnv) (i : Nat) (st : StateRec) (story : Story)
    (hpick : pick_next_story e.prd = some story)
    (hfind : e.prd2.find? (fun t => decide (t.id = story.id)) = none) :
    loopIter e i st =
      { status := .vanished, exit := some 3, prdSaved := none, stateSaves := 0,
        stateAfter := st,
        progress := [pb e.now ("ITERATION " ++ toString i ++ " STORY " ++ pyShowOpt story.id
            ++ " (" ++ pyShowOpt story.description ++ ")\n"
            ++ call_copilot e.agent e.copilot_bin ++ "\n"),
          pb e.now "ERROR: story disappeared from prd.json\n"],
        agentInvoked := true, fixPrompt := none } := by
  rw [loopIter, hpick]
  simp [hfind]

theorem loopIter_noTests_eq (e : IterEnv) (i : Nat) (st : StateRec) (story story2 : Story)
    (hpick : pick_next_story e.prd = some story)
    (hfind : e.prd2.find? (fun t => decide (t.id = story.id)) = some story2)
    (ht : story2.tests.getD [] = []) :
    loopIter e i st =
      { status := .noTests, exit := none, prdSaved := none, stateSaves := 0,
        stateAfter := st,
        progress := [pb e.now ("ITERATION " ++ toString i ++ " STORY " ++ pyShowOpt story.id
            ++ " (" ++ pyShowOpt story.description ++ ")\n"
            ++ call_copilot e.agent e.copilot_bin ++ "\n"),
          pb e.now "ERROR: story has no tests; refusing to mark pass.\n"],
        agentInvoked := true, fixPrompt := none } := by
  rw [loopIter, hpick]
  simp [hfind, ht]

theorem loopIter_testsFail_eq (e : IterEnv) (i : Nat) (st : StateRec)
    (story story2 : Story) (lg : String)
    (hpick : pick_next_story e.prd = some story)
    (hfind : e.prd2.find? (fun t => decide (t.id = story.id)) = some story2)
    (ht : ¬story2.tests.getD [] = [])
    (hrun : run_tests e.exec (story2.tests.getD []) = (false, lg)) :
    loopIter e i st =
      { status := .testsFail, exit := none, prdSaved := none, stateSaves := 0,
        stateAfter := st,
        progress := [pb e.now ("ITERATION " ++ toString i ++ " STORY " ++ pyShowOpt story.id
            ++ " (" ++ pyShowOpt story.description ++ ")\n"
            ++ call_copilot e.agent e.copilot_bin ++ "\n"),
          pb e.now ("TESTS_FAIL for " ++ pyShowOpt story2.id ++ "\n" ++ lg ++ "\n")],
        agentInvoked := true, fixPrompt := none } := by
  rw [loopIter, hpick]
  simp [hfind, ht, hrun]

theorem loopIter_accepted_eq (e : IterEnv) (i : Nat) (st : StateRec)
    (story story2 : Story) (lg : String)
    (hpick : pick_next_story e.prd = some story)
    (hfind : e.prd2.find? (fun t => decide (t.id = story.id)) = some story2)
    (ht : ¬story2.tests.getD [] = [])
    (hrun : run_tests e.exec (story2.tests.getD []) = (true, lg))
    (hcl : e.cleanAfterCommit = true) :
    loopIter e i st =
      { status := .accepted, exit := none,
        prdSaved := some (markFirstPassing e.prd2 story.id), stateSaves := 1,
        stateAfter := { st with
          runs := st.runs + 1, last_iteration_at := some e.now,
          last_story := some story2.id },
        progress := [pb e.now ("ITERATION " ++ toString i ++ " STORY " ++ pyShowOpt story.id
            ++ " (" ++ pyShowOpt story.description ++ ")\n"
            ++ call_copilot e.agent e.copilot_bin ++ "\n"),
          pb e.now ("STORY_PASS " ++ pyShowOpt story2.id ++ " (tests pass + committed + clean)\n")],
        agentInvoked := true, fixPrompt := none } := by
  rw [loopIter, hpick]
  simp [hfind, ht, hrun, hcl]

theorem loopIter_acceptedDirty_eq (e : IterEnv) (i : Nat) (st : StateRec)
    (story story2 : Story) (lg : String)
    (hpick : pick_next_story e.prd = some story)
    (hfind : e.prd2.find? (fun t => decide (t.id = story.id)) = some story2)
    (ht : ¬story2.tests.getD [] = [])
    (hrun : run_tests e.exec (story2.tests.getD []) = (true, lg))
    (hcl : e.cleanAfterCommit = false) :
    loopIter e i st =
      { status := .acceptedDirty, exit := some 5,
        prdSaved := some (markFirstPassing e.prd2 story.id), stateSaves := 0,
        stateAfter := st,
        progress := [pb e.now ("ITERATION " ++ toString i ++ " STORY " ++ pyShowOpt story.id
            ++ " (" ++ pyShowOpt story.description ++ ")\n"
            ++ call_copilot e.agent e.copilot_bin ++ "\n"),
          pb e.now ("ERROR: repo not clean after commit.\n" ++ e.porcelain ++ "\n")],
        agentInvoked := true, fixPrompt := none } := by
  rw [loopIter, hpick]
  simp [hfind, ht, hrun, hcl]

/-- Positionwise effect of `markFirstPassing`: every position is either
untouched, or it is the position of the first `id` match, whose story gets
`passes := some true` and is exactly what `find?` locates. -/
theorem markFirstPassing_spec (l : List Story) (sid : Option String) (k : Nat)
    (s s' : Story) (hk : l[k]? = some s) (hk' : (markFirstPassing l sid)[k]? = some s') :
    s' = s ∨ (s' = { s with passes := some true } ∧ s.id = sid ∧
      l.find? (fun t => decide (t.id = sid)) = some s) := by
  induction l generalizing k with
  | nil => simp at hk
  | cons t rest ih =>
    by_cases hid : t.id = sid
    · have hm : markFirstPassing (t :: rest) sid =
          { t with passes := some true } :: rest := by
        simp [markFirstPassing, hid]
      cases k with
      | zero =>
        rw [hm] at hk'
        simp only [List.getElem?_cons_zero, Option.some_inj] at hk hk'
        refine Or.inr ⟨by rw [← hk, ← hk'], hk ▸ hid, ?_⟩
        rw [List.find?_cons_of_pos _ (by simp [hid]), hk]
      | succ k =>
        rw [hm] at hk'
        simp only [List.getElem?_cons_succ] at hk hk'
        rw [hk] at hk'
        exact Or.inl (Option.some_inj.mp hk').symm
    · have hm : markFirstPassing (t :: rest) sid =
          t :: markFirstPassing rest sid := by
        simp [markFirstPassing, hid]
      cases k with
      | zero =>
        rw [hm] at hk'
        simp only [List.getElem?_cons_zero, Option.some_inj] at hk hk'
        exact Or.inl (by rw [← hk, ← hk'])
      | succ k =>
        rw [hm] at hk'
        simp only [List.getElem?_cons_succ] at hk hk'
        rcases ih k hk hk' with h | ⟨h1, h2, h3⟩
        · exact Or.inl h
        · exact Or.inr ⟨h1, h2, by rw [List.find?_cons_of_neg _ (by simp [hid]), h3]⟩

/-- Claim C1: if the iteration persists a backlog in which the story at
position `k` has flipped from not-passing to passing, then that story is the
first `id`-match for the story selected this iteration, it has a nonempty
test list, `run_tests` on exactly its own tests succeeded this iteration,
and every one of those test commands exited with code 0.  In particular a
story with a missing or empty test list is never flipped, whatever the agent
printed. -/
theorem passes_transition_only_after_tests (e : IterEnv) (i : Nat) (st : StateRec)
    (prd' : List Story) (k : Nat) (s s' : Story)
    (hsave : (loopIter e i st).prdSaved = some prd')
    (hk : e.prd2[k]? = some s) (hk' : prd'[k]? = some s')
    (hbefore : unfinished s = true) (hafter : unfinished s' = false) :
    ∃ story, pick_next_story e.prd = some story ∧
      s.id = story.id ∧
      e.prd2.find? (fun t => decide (t.id = story.id)) = some s ∧
      s.tests.getD [] ≠ [] ∧
      (run_tests e.exec (s.tests.getD [])).1 = true ∧
      ∀ c ∈ s.tests.getD [], (e.exec c).1 = 0 := by
  cases hpick : pick_next_story e.prd with
  | none =>
    exfalso
    by_cases hft : union_tests e.prd = []
    · have hok : (if union_tests e.prd = [] then (true, "(no tests)")
          else run_tests e.exec (union_tests e.prd)).1 = true := by
        rw [if_pos hft]
      cases hcl : e.cleanAfterFinalCommit
      · rw [loopIter_finalNotClean_eq e i st hpick hok hcl] at hsave
        simp at hsave
      · rw [loopIter_success_eq e i st hpick hok hcl] at hsave
        simp at hsave
    · cases hrun : run_tests e.exec (union_tests e.prd) with
      | mk ok lg =>
        cases ok
        · rw [loopIter_finalFix_eq e i st lg hpick hft hrun] at hsave
          simp at hsave
        · have hok : (if union_tests e.prd = [] then (true, "(no tests)")
              else run_tests e.exec (union_tests e.prd)).1 = true := by
            rw [if_neg hft, hrun]
          cases hcl : e.cleanAfterFinalCommit
          · rw [loopIter_finalNotClean_eq e i st hpick hok hcl] at hsave
            simp at hsave
          · rw [loopIter_success_eq e i st hpick hok hcl] at hsave
            simp at hsave
  | some story =>
    refine ⟨story, rfl, ?_⟩
    cases hfind : e.prd2.find? (fun t => decide (t.id = story.id)) with
    | none =>
      rw [loopIter_vanished_eq e i st story hpick hfind] at hsave
      simp at hsave
    | some story2 =>
      by_cases ht : story2.tests.getD [] = []
      · rw [loopIter_noTests_eq e i st story story2 hpick hfind ht] at hsave
        simp at hsave
      · cases hrun : run_tests e.exec (story2.tests.getD []) with
        | mk ok lg =>
          cases ok
          · rw [loopIter_testsFail_eq e i st story story2 lg hpick hfind ht hrun] at hsave
            simp at hsave
          · have hprd' : prd' = markFirstPassing e.prd2 story.id := by
              cases hcl : e.cleanAfterCommit
              · rw [loopIter_acceptedDirty_eq e i st story story2 lg hpick hfind ht hrun hcl]
                  at hsave
                simpa using hsave.symm
              · rw [loopIter_accepted_eq e i st story story2 lg hpick hfind ht hrun hcl]
                  at hsave
                simpa using hsave.symm
            rw [hprd'] at hk'
            rcases markFirstPassing_spec e.prd2 story.id k s s' hk hk' with
              heq | ⟨_, hid, hfound⟩
            · rw [heq] at hafter
              rw [hafter] at hbefore
              exact absurd hbefore (by simp)
            · have hs2 : story2 = s := by
                rw [hfound] at hfind
                exact (Option.some_inj.mp hfind).symm
              rw [hs2] at hrun ht
              have hok : (run_tests e.exec (s.tests.getD [])).1 = true := by
                rw [hrun]
              have hloop : (runTestsLoop e.exec (s.tests.getD [])).1 = true := by
                rw [← run_tests_fst e.exec _ ht]
                exact hok
              exact ⟨hid, congrArg some hs2, ht, hok,
                (runTestsLoop_success e.exec _ hloop).2.1⟩

/-- Concrete one-story iteration environment in which tests pass and the
story is accepted. -/
def w1story : Story := ⟨some "S1", some "demo", some 1, some ["t1"], some false⟩

/-- Iteration environment for the C1 witness. -/
def w1env : IterEnv :=
  { prd := [w1story], prd2 := [w1story], exec := fun _ => (0, "out"),
    agent := .ok (0, "agent says done"), cleanAfterCommit := true,
    cleanAfterFinalCommit := true, now := "T0", progressTail := "(none yet)",
    branch := "main", porcelain := "", diffstat := "", copilot_bin := "copilot",
    token := "COMPLETE" }

/-- State record used by the loop-level witnesses. -/
def w1st : StateRec := ⟨some "T0", 0, none, none, none⟩

/-- Witness for C1: in `w1env` the saved backlog flips story `S1` at position
0, and the theorem yields that its own single test ran and exited 0. -/
theorem passes_transition_only_after_tests_witness :
    ∃ story, pick_next_story w1env.prd = some story ∧
      w1story.id = story.id ∧
      w1env.prd2.find? (fun t => decide (t.id = story.id)) = some w1story ∧
      w1story.tests.getD [] ≠ [] ∧
      (run_tests w1env.exec (w1story.tests.getD [])).1 = true ∧
      ∀ c ∈ w1story.tests.getD [], (w1env.exec c).1 = 0 :=
  passes_transition_only_after_tests w1env 1 w1st
    [{ w1story with passes := some true }] 0 w1story
    { w1story with passes := some true }
    (by decide) (by decide) (by decide) (by decide) (by decide)

/-- Claim C7: an iteration whose selected story is located but not accepted —
its reloaded test list is empty, or its tests fail — does not rewrite the
backlog file, does not exit, leaves the run state untouched, and a
subsequent run over the unchanged backlog selects the same story. -/
theorem no_acceptance_frame (e : IterEnv) (i : Nat) (st : StateRec)
    (story story2 : Story)
    (hpick : pick_next_story e.prd = some story)
    (hfind : e.prd2.find? (fun t => decide (t.id = story.id)) = some story2)
    (h : story2.tests.getD [] = [] ∨
      (run_tests e.exec (story2.tests.getD [])).1 = false) :
    (loopIter e i st).prdSaved = none ∧
    (loopIter e i st).exit = none ∧
    (loopIter e i st).stateAfter = st ∧
    (loopIter e i st).stateSaves = 0 ∧
    (e.prd2 = e.prd → pick_next_story e.prd2 = some story) := by
  rcases h with ht | hfail
  · rw [loopIter_noTests_eq e i st story story2 hpick hfind ht]
    refine ⟨rfl, rfl, rfl, rfl, ?_⟩
    intro hagent
    rw [hagent]
    exact hpick
  · have ht : ¬story2.tests.getD [] = [] := by
      intro hnil
      rw [hnil] at hfail
      simp [run_tests] at hfail
    have hp : run_tests e.exec (story2.tests.getD []) =
        ((run_tests e.exec (story2.tests.getD [])).1,
         (run_tests e.exec (story2.tests.getD [])).2) := rfl
    rw [hfail] at hp
    rw [loopIter_testsFail_eq e i st story story2 _ hpick hfind ht hp]
    refine ⟨rfl, rfl, rfl, rfl, ?_⟩
    intro hagent
    rw [hagent]
    exact hpick

/-- Story with no tests, selected first in the C7 witness scenario. -/
def w7a : Story := ⟨some "S1", some "first", some 1, none, some false⟩

/-- Story with a test, not selected in the C7 witness scenario. -/
def w7b : Story := ⟨some "S2", some "second", some 2, some ["true"], some false⟩

/-- Iteration environment for the C7 witness: the spec's two-story scenario
(priority 1 without tests, priority 2 with tests), agent changes nothing. -/
def w7env : IterEnv :=
  { prd := [w7a, w7b], prd2 := [w7a, w7b], exec := fun _ => (0, ""),
    agent := .ok (0, "noop"), cleanAfterCommit := true,
    cleanAfterFinalCommit := true, now := "T1", progressTail := "(none yet)",
    branch := "main", porcelain := "", diffstat := "", copilot_bin := "copilot",
    token := "COMPLETE" }

/-- Witness for C7 at the spec's scenario: the no-tests priority-1 story is
selected, nothing is saved or exited, and the rerun selects it again. -/
theorem no_acceptance_frame_witness :
    (loopIter w7env 1 w1st).prdSaved = none ∧
    (loopIter w7env 1 w1st).exit = none ∧
    (loopIter w7env 1 w1st).stateAfter = w1st ∧
    (loopIter w7env 1 w1st).stateSaves = 0 ∧
    (w7env.prd2 = w7env.prd → pick_next_story w7env.prd2 = some w7a) :=
  no_acceptance_frame w7env 1 w1st w7a w7a (by decide) (by decide)
    (Or.inl (by decide))

/-- Exhaustive branch shape of `loopIter`: every branch's status with its
exit code and state-save count. -/
theorem loopIter_shape (e : IterEnv) (i : Nat) (st : StateRec) :
    ((loopIter e i st).status = .success ∧ (loopIter e i st).exit = some 0 ∧
      (loopIter e i st).stateSaves = 1) ∨
    ((loopIter e i st).status = .finalNotClean ∧ (loopIter e i st).exit = none ∧
      (loopIter e i st).stateSaves = 0) ∨
    ((loopIter e i st).status = .finalFix ∧ (loopIter e i st).exit = none ∧
      (loopIter e i st).stateSaves = 0) ∨
    ((loopIter e i st).status = .vanished ∧ (loopIter e i st).exit = some 3 ∧
      (loopIter e i st).stateSaves = 0) ∨
    ((loopIter e i st).status = .noTests ∧ (loopIter e i st).exit = none ∧
      (loopIter e i st).stateSaves = 0) ∨
    ((loopIter e i st).status = .testsFail ∧ (loopIter e i st).exit = none ∧
      (loopIter e i st).stateSaves = 0) ∨
    ((loopIter e i st).status = .accepted ∧ (loopIter e i st).exit = none ∧
      (loopIter e i st).stateSaves = 1) ∨
    ((loopIter e i st).status = .acceptedDirty ∧ (loopIter e i st).exit = some 5 ∧
      (loopIter e i st).stateSaves = 0) := by
  cases hpick : pick_next_story e.prd with
  | none =>
    cases hok : (if union_tests e.prd = [] then (true, "(no tests)")
        else run_tests e.exec (union_tests e.prd)).1
    · have hft : ¬union_tests e.prd = [] := by
        intro hnil
        rw [if_pos hnil] at hok
        simp at hok
      have hp : run_tests e.exec (union_tests e.prd) =
          ((run_tests e.exec (union_tests e.prd)).1,
           (run_tests e.exec (union_tests e.prd)).2) := rfl
      rw [if_neg hft] at hok
      rw [hok] at hp
      rw [loopIter_finalFix_eq e i st _ hpick hft hp]
      right; right; left
      exact ⟨rfl, rfl, rfl⟩
    · cases hcl : e.cleanAfterFinalCommit
      · rw [loopIter_finalNotClean_eq e i st hpick hok hcl]
        right; left
        exact ⟨rfl, rfl, rfl⟩
      · rw [loopIter_success_eq e i st hpick hok hcl]
        left
        exact ⟨rfl, rfl, rfl⟩
  | some story =>
    cases hfind : e.prd2.find? (fun t => decide (t.id = story.id)) with
    | none =>
      rw [loopIter_vanished_eq e i st story hpick hfind]
      right; right; right; left
      exact ⟨rfl, rfl, rfl⟩
    | some story2 =>
      by_cases ht : story2.tests.getD [] = []
      · rw [loopIter_noTests_eq e i st story story2 hpick hfind ht]
        right; right; right; right; left
        exact ⟨rfl, rfl, rfl⟩
      · have hp : run_tests e.exec (story2.tests.getD []) =
            ((run_tests e.exec (story2.tests.getD [])).1,
             (run_tests e.exec (story2.tests.getD [])).2) := rfl
        cases hok : (run_tests e.exec (story2.tests.getD [])).1
        · rw [hok] at hp
          rw [loopIter_testsFail_eq e i st story story2 _ hpick hfind ht hp]
          right; right; right; right; right; left
          exact ⟨rfl, rfl, rfl⟩
        · rw [hok] at hp
          cases hcl : e.cleanAfterCommit
          · rw [loopIter_acceptedDirty_eq e i st story story2 _ hpick hfind ht hp hcl]
            right; right; right; right; right; right; right
            exact ⟨rfl, rfl, rfl⟩
          · rw [loopIter_accepted_eq e i st story story2 _ hpick hfind ht hp hcl]
            right; right; right; right; right; right; left
            exact ⟨rfl, rfl, rfl⟩

/-! ### Run-state lifecycle (claim C9) -/

/-- Iteration environment for the C9 counterexample: the selected story has
no tests, so the iteration continues without touching the run state. -/
def w9env : IterEnv :=
  { prd := [⟨some "S1", some "first", some 1, none, some false⟩],
    prd2 := [⟨some "S1", some "first", some 1, none, some false⟩],
    exec := fun _ => (0, ""), agent := .ok (0, "noop"), cleanAfterCommit := true,
    cleanAfterFinalCommit := true, now := "T2", progressTail := "(none yet)",
    branch := "main", porcelain := "", diffstat := "", copilot_bin := "copilot",
    token := "COMPLETE" }

/-- Counterexample to C9 as stated: a concrete iteration of the loop (a
no-tests story, which the loop logs and skips) performs zero run-state
saves, not exactly one. -/
theorem state_saved_every_iteration_cex :
    ¬((loopIter w9env 1 w1st).stateSaves = 1) := by decide

/-- Amended C9: the run-state record is created (and persisted) on first run
when absent and loaded untouched otherwise; within an iteration it is saved
at most once, and exactly once precisely when the iteration accepts a story
or completes the run successfully.  (The core never deletes it: no branch of
the loop removes the state file.) -/
theorem state_lifecycle (now : String) (st0 : StateRec) (e : IterEnv) (i : Nat)
    (st : StateRec) :
    initState none now =
      ({ created_at := some now, runs := 0, last_completed_at := none,
         last_iteration_at := none, last_story := none }, true) ∧
    initState (some st0) now = (st0, false) ∧
    (loopIter e i st).stateSaves ≤ 1 ∧
    ((loopIter e i st).stateSaves = 1 ↔
      ((loopIter e i st).status = .accepted ∨
       (loopIter e i st).status = .success)) := by
  refine ⟨rfl, rfl, ?_, ?_⟩
  · rcases loopIter_shape e i st with
      ⟨h1, _, h3⟩ | ⟨h1, _, h3⟩ | ⟨h1, _, h3⟩ | ⟨h1, _, h3⟩ |
      ⟨h1, _, h3⟩ | ⟨h1, _, h3⟩ | ⟨h1, _, h3⟩ | ⟨h1, _, h3⟩ <;>
      rw [h3] <;> norm_num
  · rcases loopIter_shape e i st with
      ⟨h1, _, h3⟩ | ⟨h1, _, h3⟩ | ⟨h1, _, h3⟩ | ⟨h1, _, h3⟩ |
      ⟨h1, _, h3⟩ | ⟨h1, _, h3⟩ | ⟨h1, _, h3⟩ | ⟨h1, _, h3⟩ <;>
      rw [h1, h3] <;> simp

/-! ### Exit codes (claim C6) -/

/-- Over-budget base case: once the iteration counter exceeds the budget the
loop returns the "did not finish" code 1. -/
theorem runFrom_budget_exhausted (env : RunEnv) (st : StateRec) :
    runFrom env (env.maxIterations + 1) st = 1 := by
  rw [runFrom]
  simp

/-- A run returning 0 contains an iteration within budget whose body
returned 0 — and by `loopIter_shape` that branch is the success branch. -/
theorem runFrom_zero_success (env : RunEnv) (i : Nat) (st : StateRec)
    (h : runFrom env i st = 0) :
    ∃ j st', i ≤ j ∧ j ≤ env.maxIterations ∧
      (loopIter (env.iters j) j st').exit = some 0 ∧
      (loopIter (env.iters j) j st').status = .success := by
  have main : ∀ k i st, env.maxIterations + 1 - i = k → runFrom env i st = 0 →
      ∃ j st', i ≤ j ∧ j ≤ env.maxIterations ∧
        (loopIter (env.iters j) j st').exit = some 0 ∧
        (loopIter (env.iters j) j st').status = .success := by
    intro k
    induction k with
    | zero =>
      intro i st hk h
      have hgt : ¬i ≤ env.maxIterations := by omega
      rw [runFrom, dif_neg hgt] at h
      exact absurd h (by norm_num)
    | succ k ih =>
      intro i st hk h
      by_cases hle : i ≤ env.maxIterations
      · rw [runFrom, dif_pos hle] at h
        cases hex : (loopIter (env.iters i) i st).exit with
        | some c =>
          rw [hex] at h
          simp only at h
          subst h
          rcases loopIter_shape (env.iters i) i st with
            ⟨h1, h2, _⟩ | ⟨h1, h2, _⟩ | ⟨h1, h2, _⟩ | ⟨h1, h2, _⟩ |
            ⟨h1, h2, _⟩ | ⟨h1, h2, _⟩ | ⟨h1, h2, _⟩ | ⟨h1, h2, _⟩ <;>
            rw [h2] at hex <;> first
            | exact ⟨i, st, le_refl i, hle, h2, h1⟩
            | simp at hex
        | none =>
          rw [hex] at h
          simp only at h
          obtain ⟨j, st', hij, hjm, hex0, hsucc⟩ :=
            ih (i + 1) (loopIter (env.iters i) i st).stateAfter (by omega) h
          exact ⟨j, st', by omega, hjm, hex0, hsucc⟩
      · rw [runFrom, dif_neg hle] at h
        exact absurd h (by norm_num)
  exact main (env.maxIterations + 1 - i) i st rfl h

/-- Claim C6: the dirty-start refusal exits 2; inside the loop, exit code 0
is returned exactly by the success branch, 3 exactly by the story-vanished
branch, 5 exactly by the dirty-after-acceptance-commit branch, and no other
code is returned from inside the loop; exhausting the budget returns 1; and
a run can only return 0 by reaching the success branch within budget.  The
codes 2, 3, 5, 1 are pairwise distinct and nonzero. -/
theorem exit_codes_spec (env : RunEnv) (e : IterEnv) (i : Nat) (st : StateRec) :
    (env.allowDirty = false → env.cleanStart = false → ralphMain env = 2) ∧
    ((loopIter e i st).exit = some 0 ↔ (loopIter e i st).status = .success) ∧
    ((loopIter e i st).exit = some 3 ↔ (loopIter e i st).status = .vanished) ∧
    ((loopIter e i st).exit = some 5 ↔ (loopIter e i st).status = .acceptedDirty) ∧
    (∀ c, (loopIter e i st).exit = some c → c = 0 ∨ c = 3 ∨ c = 5) ∧
    runFrom env (env.maxIterations + 1) st = 1 ∧
    (ralphMain env = 0 →
      ∃ j st', 1 ≤ j ∧ j ≤ env.maxIterations ∧
        (loopIter (env.iters j) j st').exit = some 0 ∧
        (loopIter (env.iters j) j st').status = .success) ∧
    ([(2 : Int), 3, 5, 1].Nodup ∧ (0 : Int) ∉ [(2 : Int), 3, 5, 1]) := by
  refine ⟨?_, ?_, ?_, ?_, ?_, runFrom_budget_exhausted env st, ?_, by decide, by decide⟩
  · intro h1 h2
    rw [ralphMain, h1, h2]
    rfl
  · rcases loopIter_shape e i st with
      ⟨h1, h2, _⟩ | ⟨h1, h2, _⟩ | ⟨h1, h2, _⟩ | ⟨h1, h2, _⟩ |
      ⟨h1, h2, _⟩ | ⟨h1, h2, _⟩ | ⟨h1, h2, _⟩ | ⟨h1, h2, _⟩ <;>
      rw [h1, h2] <;> simp
  · rcases loopIter_shape e i st with
      ⟨h1, h2, _⟩ | ⟨h1, h2, _⟩ | ⟨h1, h2, _⟩ | ⟨h1, h2, _⟩ |
      ⟨h1, h2, _⟩ | ⟨h1, h2, _⟩ | ⟨h1, h2, _⟩ | ⟨h1, h2, _⟩ <;>
      rw [h1, h2] <;> simp
  · rcases loopIter_shape e i st with
      ⟨h1, h2, _⟩ | ⟨h1, h2, _⟩ | ⟨h1, h2, _⟩ | ⟨h1, h2, _⟩ |
      ⟨h1, h2, _⟩ | ⟨h1, h2, _⟩ | ⟨h1, h2, _⟩ | ⟨h1, h2, _⟩ <;>
      rw [h1, h2] <;> simp
  · intro c hc
    rcases loopIter_shape e i st with
      ⟨_, h2, _⟩ | ⟨_, h2, _⟩ | ⟨_, h2, _⟩ | ⟨_, h2, _⟩ |
      ⟨_, h2, _⟩ | ⟨_, h2, _⟩ | ⟨_, h2, _⟩ | ⟨_, h2, _⟩ <;>
      rw [h2] at hc <;> simp at hc <;> simp [hc]
  · intro h0
    rw [ralphMain] at h0
    cases hA : env.allowDirty <;> cases hC : env.cleanStart <;>
      rw [hA, hC] at h0 <;> simp only [Bool.not_true, Bool.not_false,
        Bool.and_true, Bool.and_false, Bool.true_and, Bool.false_and,
        Bool.and_self, if_true, if_false] at h0
    · norm_num at h0
    all_goals exact runFrom_zero_success env 1 _ h0

/-- Whole-run environment for the C6 witness: dirty start, no override. -/
def w6run : RunEnv :=
  { iters := fun _ => w9env, maxIterations := 1, allowDirty := false,
    cleanStart := false, state0 := none, startNow := "T0" }

/-- Witness for C6: the dirty-start refusal exits 2 at a concrete run
environment, and the in-loop code characterisations hold at a concrete
iteration. -/
theorem exit_codes_spec_witness :
    ralphMain w6run = 2 ∧
    ((loopIter w9env 1 w1st).exit = some 0 ↔
      (loopIter w9env 1 w1st).status = .success) :=
  ⟨(exit_codes_spec w6run w9env 1 w1st).1 rfl rfl,
   (exit_codes_spec w6run w9env 1 w1st).2.1⟩

/-! ### Final-tests failure can never end in success (claim C5) -/

/-- The situation of claim C5 at one iteration: every story passes but the
aggregate (union-of-all-tests) run fails. -/
def failSituation (e : IterEnv) : Prop :=
  (∀ s ∈ e.prd, unfinished s = false) ∧
  union_tests e.prd ≠ [] ∧
  (run_tests e.exec (union_tests e.prd)).1 = false

/-- In the fail situation an iteration takes the final-fix branch: it does
not exit, logs `FINAL_TESTS_FAIL`, invokes the agent with the fix prompt
built from the failing log, and continues. -/
theorem loopIter_failSituation (e : IterEnv) (i : Nat) (st : StateRec)
    (h : failSituation e) :
    loopIter e i st =
      { status := .finalFix, exit := none, prdSaved := none, stateSaves := 0,
        stateAfter := st,
        progress := [pb e.now ("FINAL_TESTS_FAIL\n"
            ++ (run_tests e.exec (union_tests e.prd)).2 ++ "\n"),
          pb e.now ("ITERATION " ++ toString i ++ " FINAL_TESTS_FIX\n"
            ++ call_copilot e.agent e.copilot_bin ++ "\n")],
        agentInvoked := true,
        fixPrompt := some (build_final_tests_fix_prompt e.prd
          (run_tests e.exec (union_tests e.prd)).2 e.progressTail
          e.token e.branch e.porcelain e.diffstat) } := by
  obtain ⟨hall, hft, hrun⟩ := h
  have hpick : pick_next_story e.prd = none := by
    have hfil : e.prd.filter unfinished = [] := by
      apply List.filter_eq_nil_iff.mpr
      intro s hs
      simp [hall s hs]
    simp [pick_next_story, hfil]
  have hp : run_tests e.exec (union_tests e.prd) =
      ((run_tests e.exec (union_tests e.prd)).1,
       (run_tests e.exec (union_tests e.prd)).2) := rfl
  rw [hrun] at hp
  exact loopIter_finalFix_eq e i st _ hpick hft hp

/-- Claim C5: if every iteration within the budget is in the fail situation
(all stories pass, aggregate tests fail), then the whole loop returns the
exhausted code 1 — never 0 — and every in-budget iteration continues
without exiting, invokes the agent, builds the fix prompt with the failing
output embedded as its bounded-tail truncation, and appends the failure block
to the ledger; reaching the budget in this situation yields the exhausted
code, never the success code. -/
theorem aggregate_failure_never_success (env : RunEnv)
    (hfail : ∀ i, 1 ≤ i → i ≤ env.maxIterations → failSituation (env.iters i)) :
    (∀ i st, 1 ≤ i → runFrom env i st = 1) ∧
    (env.allowDirty = true ∨ env.cleanStart = true → ralphMain env = 1) ∧
    (∀ i st, 1 ≤ i → i ≤ env.maxIterations →
      (loopIter (env.iters i) i st).exit = none ∧
      (loopIter (env.iters i) i st).status = .finalFix ∧
      (loopIter (env.iters i) i st).agentInvoked = true ∧
      (loopIter (env.iters i) i st).fixPrompt =
        some (build_final_tests_fix_prompt (env.iters i).prd
          (run_tests (env.iters i).exec (union_tests (env.iters i).prd)).2
          (env.iters i).progressTail (env.iters i).token (env.iters i).branch
          (env.iters i).porcelain (env.iters i).diffstat) ∧
      (∃ a b, build_final_tests_fix_prompt (env.iters i).prd
          (run_tests (env.iters i).exec (union_tests (env.iters i).prd)).2
          (env.iters i).progressTail (env.iters i).token (env.iters i).branch
          (env.iters i).porcelain (env.iters i).diffstat =
        a ++ truncateTestLog
          (run_tests (env.iters i).exec (union_tests (env.iters i).prd)).2 ++ b) ∧
      pb (env.iters i).now ("FINAL_TESTS_FAIL\n"
          ++ (run_tests (env.iters i).exec (union_tests (env.iters i).prd)).2 ++ "\n")
        ∈ (loopIter (env.iters i) i st).progress) := by
  have hloop : ∀ k i st, env.maxIterations + 1 - i = k → 1 ≤ i →
      runFrom env i st = 1 := by
    intro k
    induction k with
    | zero =>
      intro i st hk h1
      have hgt : ¬i ≤ env.maxIterations := by omega
      rw [runFrom, dif_neg hgt]
    | succ k ih =>
      intro i st hk h1
      by_cases hle : i ≤ env.maxIterations
      · rw [runFrom, dif_pos hle]
        rw [loopIter_failSituation (env.iters i) i st (hfail i h1 hle)]
        simp only
        exact ih (i + 1) _ (by omega) (by omega)
      · rw [runFrom, dif_neg hle]
  refine ⟨fun i st h1 => hloop (env.maxIterations + 1 - i) i st rfl h1, ?_, ?_⟩
  · intro hok
    rw [ralphMain]
    have hgate : (!env.allowDirty && !env.cleanStart) = false := by
      rcases hok with h | h <;> rw [h] <;> simp
    rw [hgate]
    simp only [Bool.false_eq_true, if_false]
    exact hloop (env.maxIterations + 1 - 1) 1 _ rfl (le_refl 1)
  · intro i st h1 hle
    rw [loopIter_failSituation (env.iters i) i st (hfail i h1 hle)]
    refine ⟨rfl, rfl, rfl, rfl, ⟨_, _, rfl⟩, ?_⟩
    simp

/-- Iteration environment for the C5 witness: a single always-passing story
whose test command fails. -/
def w5iter : IterEnv :=
  { prd := [⟨some "S1", some "done", some 1, some ["t"], some true⟩],
    prd2 := [⟨some "S1", some "done", some 1, some ["t"], some true⟩],
    exec := fun _ => (1, "assertion failed"), agent := .ok (0, "tried"),
    cleanAfterCommit := true, cleanAfterFinalCommit := true, now := "T3",
    progressTail := "(none yet)", branch := "main", porcelain := "",
    diffstat := "", copilot_bin := "copilot", token := "COMPLETE" }

/-- Run environment for the C5 witness: every iteration sees `w5iter`, over a
two-iteration budget. -/
def w5run : RunEnv :=
  { iters := fun _ => w5iter, maxIterations := 2, allowDirty := true,
    cleanStart := true, state0 := none, startNow := "T0" }

/-- Every in-budget iteration of `w5run` is in the fail situation. -/
theorem w5run_failSituation :
    ∀ i, 1 ≤ i → i ≤ w5run.maxIterations → failSituation (w5run.iters i) := by
  intro i _ _
  show failSituation w5iter
  exact ⟨by decide, by decide, by decide⟩

/-- Witness for C5: the concrete run `w5run` terminates with the exhausted
code 1, not the success code. -/
theorem aggregate_failure_never_success_witness : ralphMain w5run = 1 :=
  (aggregate_failure_never_success w5run w5run_failSituation).2.1 (Or.inl rfl)

end Ralph
